import Mathlib

/-!
Verification of `api/proxy.js` (a single-hop HTTP forwarding proxy running as a
serverless handler).  The development shallowly embeds the handler's validation
pipeline and its HTML rewrite engine.

Modelling conventions:
* JavaScript strings are modelled as `List Char` (`Str`); `String` wrappers are
  provided where convenient.
* The WHATWG `new URL` parser and resolver are platform primitives, not code of
  this repository; they enter the embedding as parameters
  (`parseURL : String → Option URLRec`, `resolve : Str → Option Str`).
* The regexes of the source are compiled by hand into deterministic scanning
  functions.  Crucially, the source writes several regex *literals* with
  doubled backslashes (`/^\\d+\\.\\d+\\.\\d+\\.\\d+$/`,
  `/(src|href|action)=("|\')([^"\'>]+)\\2/ig`, `/srcset=("|\')([^"']+)\\1/ig`,
  and `127(?:\\.|$)` / `0\\.0\\.0\\.0` inside the host check).  Inside a regex
  literal `\\` is an escaped backslash matching the literal character `\`, and
  a `.` or digit following it is then an ordinary metacharacter/literal.  The
  embedding reproduces exactly this (actual) semantics.
-/

namespace Zyron

abbrev Str := List Char

/-- ASCII lower-casing of one character.  JavaScript's case-insensitive `/i`
flag (without `/u`) never lets a non-ASCII character match an ASCII letter, so
ASCII folding is an exact model for the ASCII-only patterns that occur here. -/
def lowerChar (c : Char) : Char :=
  if 'A' ≤ c ∧ c ≤ 'Z' then Char.ofNat (c.toNat + 32) else c

/-- `hasPre pat l` : `pat` occurs at the very start of `l` (exact match). -/
def hasPre : Str → Str → Bool
  | [], _ => true
  | _ :: _, [] => false
  | p :: ps, c :: cs => c == p && hasPre ps cs

/-- `hasPreCI pat l` : the lowercase pattern `pat` occurs at the start of `l`,
compared after ASCII-lowercasing `l`'s characters. -/
def hasPreCI : Str → Str → Bool
  | [], _ => true
  | _ :: _, [] => false
  | p :: ps, c :: cs => lowerChar c == p && hasPreCI ps cs

/-- `hasSub pat l` : `pat` occurs somewhere in `l` (exact match). -/
def hasSub (pat : Str) : Str → Bool
  | [] => pat.isEmpty
  | c :: cs => hasPre pat (c :: cs) || hasSub pat cs

/-- `hasSuf pat l` : `pat` occurs at the end of `l` (exact match). -/
def hasSuf (pat l : Str) : Bool :=
  hasPre pat.reverse l.reverse

/-! ## Host screening

Source, lines 21–33:

```js
const host = target.hostname;
if (/^(localhost|127(?:\\.|$)|0\\.0\\.0\\.0|::1)$/.test(host) || /\.local$/i.test(host)) {
  return res.status(403).send('Forbidden host');
}
if (/^\\d+\\.\\d+\\.\\d+\\.\\d+$/.test(host)) {
  const parts = host.split('.').map(Number);
  if (
    parts[0] === 10 ||
    (parts[0] === 172 && parts[1] >= 16 && parts[1] <= 31) ||
    (parts[0] === 192 && parts[1] === 168)
  ) return res.status(403).send('Forbidden IP range');
}
```
-/

/-- The `127(?:\\.|$)` alternative of the first host regex.  `\\` matches a
literal backslash and the following `.` matches any character, so the
alternative accepts exactly `127` and `127\⟨c⟩` for an arbitrary character
`⟨c⟩` (the outer `$` anchors the end). -/
def m127 : Str → Bool
  | ['1', '2', '7'] => true
  | ['1', '2', '7', '\\', _] => true
  | _ => false

/-- The `0\\.0\\.0\\.0` alternative: `0`, literal backslash, any character,
three times, then a final `0`. -/
def m0000 : Str → Bool
  | ['0', '\\', _, '0', '\\', _, '0', '\\', _, '0'] => true
  | _ => false

/-- `/^(localhost|127(?:\\.|$)|0\\.0\\.0\\.0|::1)$/.test(host)` compiled as it
actually reads (no `i` flag on this literal). -/
def forbiddenHostRegexTest (h : String) : Bool :=
  h == "localhost" || m127 h.data || m0000 h.data || h == "::1"

/-- `/\.local$/i.test(host)` : a literal dot followed by `local`,
case-insensitively, at the end of the hostname. -/
def dotLocalTest (h : String) : Bool :=
  hasSuf ".local".data (h.data.map lowerChar)

/-- One `\\d+` unit of the dotted-quad regex: a literal backslash, then one or
more literal `d` characters (the `+` binds to the atom `d`). -/
def mBsDs : Str → Option Str
  | '\\' :: 'd' :: rest => some (rest.dropWhile (fun c => c == 'd'))
  | _ => none

/-- One `\\.` unit: a literal backslash, then any single character. -/
def mBsAny : Str → Option Str
  | '\\' :: _ :: rest => some rest
  | _ => none

/-- `/^\\d+\\.\\d+\\.\\d+\\.\\d+$/.test(host)` compiled as it actually reads:
`\ d+ \ ⟨any⟩ \ d+ \ ⟨any⟩ \ d+ \ ⟨any⟩ \ d+` anchored at both ends.  No
backslash-free hostname can ever satisfy it. -/
def dottedQuadRegexTest (h : String) : Bool :=
  match mBsDs h.data with
  | none => false
  | some r1 =>
    match mBsAny r1 with
    | none => false
    | some r2 =>
      match mBsDs r2 with
      | none => false
      | some r3 =>
        match mBsAny r3 with
        | none => false
        | some r4 =>
          match mBsDs r4 with
          | none => false
          | some r5 =>
            match mBsAny r5 with
            | none => false
            | some r6 =>
              match mBsDs r6 with
              | none => false
              | some r7 => r7.isEmpty

/-- Numeric value of a digit run. -/
def digitsToNat (l : Str) : Nat :=
  l.foldl (fun acc c => acc * 10 + (c.toNat - 48)) 0

/-- JavaScript `String.prototype.split` with a one-character string separator:
every piece is kept, including empty ones. -/
def splitOnChar (sep : Char) : Str → List Str
  | [] => [[]]
  | c :: rest =>
    if c = sep then [] :: splitOnChar sep rest
    else
      match splitOnChar sep rest with
      | h :: t => (c :: h) :: t
      | [] => [[c]]

/-- JavaScript `Number(s)` restricted to the strings produced by splitting a
hostname on `.`: the empty string converts to `0`, a run of decimal digits to
its value, and anything else (in particular any piece containing a backslash
or letter) to `NaN`, modelled as `none`. -/
def jsNumber (l : Str) : Option Nat :=
  if l.isEmpty then some 0
  else if l.all Char.isDigit then some (digitsToNat l) else none

/-- `parts[i] === v` where `parts = host.split('.').map(Number)`: an
out-of-range index (`undefined`) or `NaN` never equals a number. -/
def partIs (parts : List (Option Nat)) (i v : Nat) : Bool :=
  match parts.get? i with
  | some (some n) => n == v
  | _ => false

/-- `parts[1] >= 16 && parts[1] <= 31`; `NaN`/`undefined` fail both bounds. -/
def partInPrivate172 (parts : List (Option Nat)) : Bool :=
  match parts.get? 1 with
  | some (some n) => 16 ≤ n && n ≤ 31
  | _ => false

/-- The private-range octet test of lines 27–32 (the body of the
`dottedQuadRegexTest` guard). -/
def privateRangeHit (h : String) : Bool :=
  let parts := (splitOnChar '.' h.data).map jsNumber
  partIs parts 0 10 ||
    (partIs parts 0 172 && partInPrivate172 parts) ||
    (partIs parts 0 192 && partIs parts 1 168)

/-! ## Request validation pipeline (lines 5–40) -/

/-- The fields of a WHATWG `URL` object the handler reads. -/
structure URLRec where
  protocol : String
  hostname : String
  deriving Repr, DecidableEq

/-- The parts of the incoming request the validation stage reads.  A missing
query parameter or header is `none`. -/
structure Req where
  queryUrl : Option String
  headerTargetUrl : Option String
  apiKeyHeader : Option String
  deriving Repr, DecidableEq

/-- Server-side configuration: `process.env.API_KEY || ''` and
`process.env.ALLOWLIST || ''`. -/
structure Config where
  apiKey : String
  allowlist : String
  deriving Repr, DecidableEq

/-- Outcome of the validation stage: an early `res.status(s).send(msg)`
rejection, or fall-through to the upstream fetch with the parsed target. -/
inductive VResult where
  | reject (status : Nat) (msg : String)
  | proceed (target : URLRec)
  deriving Repr, DecidableEq

/-- JavaScript string truthiness: only the empty string is falsy. -/
def jsTruthy (s : String) : Bool := s != ""

/-- `const targetUrl = (req.query && req.query.url) || req.headers['x-target-url']`
followed by the `if (!targetUrl)` presence gate: the query value is used when
present and non-empty, else the header when present and non-empty, else the
target is missing. -/
def targetUrlOf (req : Req) : Option String :=
  let q := req.queryUrl.getD ""
  let h := req.headerTargetUrl.getD ""
  if jsTruthy q then some q else if jsTruthy h then some h else none

/-- JavaScript `s.trim()` / regex `\s`: ECMAScript WhiteSpace plus
LineTerminator code points. -/
def isWsJs (c : Char) : Bool :=
  let n := c.toNat
  n == 9 || n == 10 || n == 11 || n == 12 || n == 13 || n == 32 ||
    n == 160 || n == 5760 || (8192 ≤ n && n ≤ 8202) || n == 8232 ||
    n == 8233 || n == 8239 || n == 8287 || n == 12288 || n == 65279

/-- JavaScript `String.prototype.trim`. -/
def jsTrim (l : Str) : Str :=
  ((l.dropWhile isWsJs).reverse.dropWhile isWsJs).reverse

/-- `(process.env.ALLOWLIST || '').split(',').map(s => s.trim()).filter(Boolean)`. -/
def allowlistOf (s : String) : List String :=
  ((splitOnChar ',' s.data).map (fun a => String.mk (jsTrim a))).filter jsTruthy

/-- `allowlist.some(a => a === host || host.endsWith('.' + a))`. -/
def allowHit (allow : List String) (host : String) : Bool :=
  allow.any (fun a => a == host || hasSuf ('.' :: a.data) host.data)

/-- The validation stage of the handler (lines 5–40), up to the upstream
fetch.  `parseURL` stands for the platform's `new URL` constructor (returning
`none` when it throws). -/
def validate (parseURL : String → Option URLRec) (cfg : Config) (req : Req) :
    VResult :=
  match targetUrlOf req with
  | none => .reject 400 "Missing \"url\" query parameter"
  | some turl =>
    if cfg.apiKey != "" && req.apiKeyHeader.getD "" != cfg.apiKey then
      .reject 401 "Unauthorized — invalid API key"
    else
      match parseURL turl with
      | none => .reject 400 "Invalid URL"
      | some t =>
        if !(t.protocol == "http:" || t.protocol == "https:") then
          .reject 400 "Only http/https allowed"
        else if forbiddenHostRegexTest t.hostname || dotLocalTest t.hostname then
          .reject 403 "Forbidden host"
        else if dottedQuadRegexTest t.hostname && privateRangeHit t.hostname then
          .reject 403 "Forbidden IP range"
        else if (allowlistOf cfg.allowlist).length > 0 &&
            !allowHit (allowlistOf cfg.allowlist) t.hostname then
          .reject 403 "Host not allowed by allowlist"
        else .proceed t

/-! ## HTML rewrite engine (lines 48–81)

The three `String.prototype.replace` calls are embedded by one generic
left-to-right scanner, `scanReplace`, plus one hand-compiled matcher per regex
literal.  A matcher `Str → Option (α × Nat)` decides whether a match of the
regex starts at the head of its argument and, if so, returns the captured
groups and the length of the match; `scanReplace` then mirrors the semantics
of a global `replace`: scan from the left, substitute the callback's output
for each match, resume scanning right after the match, and copy a character
and move on when no match starts there.  The fuel argument is an upper bound
on the number of scan steps; every match consumes at least one character, so
fuel equal to the input length is always sufficient. -/

/-- Generic global regex replacement.  `matcher cs = some (g, n)` means a
match of length `n` with captures `g` starts at the head of `cs`;
`cb g t` is the replacement for the matched text `t`. -/
def scanReplace (matcher : Str → Option (α × Nat)) (cb : α → Str → Str) :
    Nat → Str → Str
  | 0, cs => cs
  | fuel + 1, cs =>
    match matcher cs with
    | some (g, n) => cb g (cs.take n) ++ scanReplace matcher cb fuel (cs.drop n)
    | none =>
      match cs with
      | [] => []
      | c :: cs' => c :: scanReplace matcher cb fuel cs'

/-! ### CSP meta-tag removal (line 51)

```js
html = html.replace(/<meta[^>]*http-equiv=["']Content-Security-Policy["'][^>]*>/ig, '');
```

Since no character of the pattern between `<meta` and the final `>` can match
`>`, a match starting at some `<meta` extends exactly to the first following
`>`, and exists iff the segment in between contains
`http-equiv=⟨q⟩content-security-policy⟨q'⟩` (case-insensitively, quotes chosen
independently by the two `["']` classes). -/

/-- Split at the first `>`: `some (seg, rest)` with the input equal to
`seg ++ '>' :: rest` and no `>` in `seg`. -/
def splitAtGt : Str → Option (Str × Str)
  | [] => none
  | c :: rest =>
    if c = '>' then some ([], rest)
    else
      match splitAtGt rest with
      | some (seg, after) => some (c :: seg, after)
      | none => none

/-- The four quote combinations of `http-equiv=["']Content-Security-Policy["']`,
in lowercase. -/
def cspNeedles : List Str :=
  [mk '"' '"', mk '"' '\'', mk '\'' '"', mk '\'' '\'']
where
  mk (q1 q2 : Char) : Str :=
    "http-equiv=".data ++ q1 :: "content-security-policy".data ++ [q2]

/-- Does the (still un-lowercased) tag body contain the CSP `http-equiv`
attribute, in either quote style, case-insensitively? -/
def cspSegHit (seg : Str) : Bool :=
  cspNeedles.any (fun nd => hasSub nd (seg.map lowerChar))

/-- Leftmost-anchored match of the CSP `<meta …>` regex: `<meta` (the `<` is
exact, `meta` case-insensitive), then everything up to the first `>`, provided
that span contains the CSP `http-equiv` attribute. -/
def cspMatchAt (cs : Str) : Option (Unit × Nat) :=
  match cs with
  | [] => none
  | c :: rest =>
    if c = '<' then
      if hasPreCI "meta".data rest then
        match splitAtGt (rest.drop 4) with
        | some (seg, _) => if cspSegHit seg then some ((), 1 + 4 + seg.length + 1) else none
        | none => none
      else none
    else none

/-- The replacement callback of the CSP removal: the empty string. -/
def cspCb : Unit → Str → Str := fun _ _ => []

/-- `html.replace(/<meta[^>]*http-equiv=["']Content-Security-Policy["'][^>]*>/ig, '')`. -/
def removeCspL (cs : Str) : Str :=
  scanReplace cspMatchAt cspCb cs.length cs

/-! ### src/href/action attribute rewrite (lines 55–64)

```js
const rewriteAttr = (m, attr, q, val) => {
  try {
    const abs = new URL(val, target).toString();
    const proxyBase = `${req.protocol || 'https'}://${req.headers.host}/api/proxy`;
    return `${attr}=${q}${proxyBase}?url=${encodeURIComponent(abs)}${q}`;
  } catch (e) { return m; }
};
html = html.replace(/(src|href|action)=("|\')([^"\'>]+)\\2/ig, rewriteAttr);
```

In the regex literal, `\\2` is an escaped backslash followed by the literal
character `2` — it is *not* a backreference to group 2.  A match is therefore
`⟨attr⟩=⟨q⟩⟨val⟩\2` where `⟨val⟩` is a non-empty run of characters other than
`"`, `'`, `>` ended by a literal `\2` pair.  Greedy matching of `[^"\'>]+`
with backtracking picks the *last* `\2` pair inside the maximal run (both `\`
and `2` lie inside the character class, and the character right after the
maximal run can be neither `\` nor `2`). -/

/-- Index of the last adjacent pair `x, y` in a list (`some i` with
`l[i] = x`, `l[i+1] = y`), as selected by greedy backtracking. -/
def lastPairIdx (x y : Char) : Str → Option Nat
  | [] => none
  | [_] => none
  | a :: b :: rest =>
    match lastPairIdx x y (b :: rest) with
    | some j => some (j + 1)
    | none => if a == x && b == y then some 0 else none

/-- The character class `[^"\'>]`. -/
def attrValChar (c : Char) : Bool :=
  !(c == '"' || c == '\'' || c == '>')

/-- Case-insensitive first-alternative match of `(src|href|action)` at the
head, returning the matched text (original case) and its length.  The three
alternatives start with distinct letters, so the choice is deterministic. -/
def attrNameAt (cs : Str) : Option (Str × Nat) :=
  if hasPreCI "src".data cs then some (cs.take 3, 3)
  else if hasPreCI "href".data cs then some (cs.take 4, 4)
  else if hasPreCI "action".data cs then some (cs.take 6, 6)
  else none

/-- Leftmost-anchored match of `/(src|href|action)=("|\')([^"\'>]+)\\2/i`:
captures `(attr, q, val)` and the match length. -/
def attrMatchAt (cs : Str) : Option ((Str × Char × Str) × Nat) :=
  match attrNameAt cs with
  | none => none
  | some (nm, k) =>
    match cs.drop k with
    | c1 :: q :: rest =>
      if c1 = '=' then
        if q == '"' || q == '\'' then
          let R := rest.takeWhile attrValChar
          match lastPairIdx '\\' '2' R with
          | some i => if 1 ≤ i then some ((nm, q, R.take i), k + 2 + i + 2) else none
          | none => none
        else none
      else none
    | _ => none

/-- JavaScript `encodeURIComponent`: every character outside the unreserved
set `A–Z a–z 0–9 - _ . ! ~ * ' ( )` is replaced by the `%XX` (uppercase hex)
encoding of each of its UTF-8 bytes. -/
def isUnreserved (c : Char) : Bool :=
  ('A' ≤ c && c ≤ 'Z') || ('a' ≤ c && c ≤ 'z') || ('0' ≤ c && c ≤ '9') ||
    c == '-' || c == '_' || c == '.' || c == '!' || c == '~' || c == '*' ||
    c == '\'' || c == '(' || c == ')'

/-- Uppercase hexadecimal digit for `n < 16`. -/
def hexDigitChar (n : Nat) : Char :=
  if n < 10 then Char.ofNat (48 + n) else Char.ofNat (55 + n)

/-- UTF-8 bytes of one character (as `Nat`s below 256). -/
def utf8BytesOf (c : Char) : List Nat :=
  let n := c.toNat
  if n < 128 then [n]
  else if n < 2048 then [192 + n / 64, 128 + n % 64]
  else if n < 65536 then [224 + n / 4096, 128 + (n / 64) % 64, 128 + n % 64]
  else [240 + n / 262144, 128 + (n / 4096) % 64, 128 + (n / 64) % 64, 128 + n % 64]

/-- `%XX` encoding of one byte. -/
def pctEncByte (b : Nat) : Str :=
  ['%', hexDigitChar (b / 16), hexDigitChar (b % 16)]

/-- `encodeURIComponent` on the character-list representation. -/
def encodeURIComponent (l : Str) : Str :=
  (l.map (fun c =>
    if isUnreserved c then [c] else ((utf8BytesOf c).map pctEncByte).flatten)).flatten

/-- The `rewriteAttr` callback.  `resolve` stands for
`val ↦ new URL(val, target).toString()` (`none` when the constructor throws);
`pb` is the proxy base `⟨req.protocol || 'https'⟩://⟨req.headers.host⟩/api/proxy`. -/
def attrCb (resolve : Str → Option Str) (pb : Str) :
    Str × Char × Str → Str → Str :=
  fun g m =>
    match resolve g.2.2 with
    | some abs => g.1 ++ '=' :: g.2.1 :: (pb ++ "?url=".data ++ encodeURIComponent abs) ++ [g.2.1]
    | none => m

/-- `html.replace(/(src|href|action)=("|\')([^"\'>]+)\\2/ig, rewriteAttr)`. -/
def attrPassL (resolve : Str → Option Str) (pb : Str) (cs : Str) : Str :=
  scanReplace attrMatchAt (attrCb resolve pb) cs.length cs

/-! ### srcset rewrite (lines 67–81)

```js
html = html.replace(/srcset=("|\')([^"']+)\\1/ig, (m, q, val) => {
  try {
    const parts = val.split(',').map(p => p.trim());
    const rewritten = parts.map(part => {
      const urlPart = part.split(/\s+/)[0];
      const rest = part.slice(urlPart.length);
      const abs = new URL(urlPart, target).toString();
      const proxyBase = `${req.protocol || 'https'}://${req.headers.host}/api/proxy`;
      return `${proxyBase}?url=${encodeURIComponent(abs)}${rest}`;
    }).flatten(', ');
    return `srcset=${q}${rewritten}${q}`;
  } catch (e) { return m; }
});
```

Again `\\1` in the literal is a literal `\1` pair, not a backreference, so a
match is `srcset=⟨q⟩⟨val⟩\1` with `⟨val⟩` a non-empty run of non-quote
characters ended by the last `\1` pair of the maximal run. -/

/-- The character class `[^"']`. -/
def srcsetValChar (c : Char) : Bool :=
  !(c == '"' || c == '\'')

/-- Leftmost-anchored match of `/srcset=("|\')([^"']+)\\1/i`: captures
`(q, val)` and the match length. -/
def srcsetMatchAt (cs : Str) : Option ((Char × Str) × Nat) :=
  if hasPreCI "srcset=".data cs then
    match cs.drop 7 with
    | q :: rest =>
      if q == '"' || q == '\'' then
        let R := rest.takeWhile srcsetValChar
        match lastPairIdx '\\' '1' R with
        | some i => if 1 ≤ i then some ((q, R.take i), 7 + 1 + i + 2) else none
        | none => none
      else none
    | [] => none
  else none

/-- `part.split(/\s+/)[0]` for a trimmed `part`: the leading run of
non-whitespace characters. -/
def jsUrlTok (part : Str) : Str :=
  part.takeWhile (fun c => !isWsJs c)

/-- The srcset replacement callback: all candidate URLs must resolve (a throw
on any candidate aborts the whole attribute and returns the matched text
unchanged); on success the candidates are rejoined with `", "`. -/
def srcsetCb (resolve : Str → Option Str) (pb : Str) :
    Char × Str → Str → Str :=
  fun g m =>
    let parts := (splitOnChar ',' g.2).map jsTrim
    match parts.mapM (fun part =>
        (resolve (jsUrlTok part)).map (fun abs =>
          pb ++ "?url=".data ++ encodeURIComponent abs ++ part.drop (jsUrlTok part).length)) with
    | some l => "srcset=".data ++ g.1 :: (l.intersperse ", ".data).flatten ++ [g.1]
    | none => m

/-- `html.replace(/srcset=("|\')([^"']+)\\1/ig, …)`. -/
def srcsetPassL (resolve : Str → Option Str) (pb : Str) (cs : Str) : Str :=
  scanReplace srcsetMatchAt (srcsetCb resolve pb) cs.length cs

/-- The whole HTML rewrite: CSP meta removal, then the single-URL attribute
pass, then the srcset pass, in source order. -/
def rewriteHtmlL (resolve : Str → Option Str) (pb : Str) (cs : Str) : Str :=
  srcsetPassL resolve pb (attrPassL resolve pb (removeCspL cs))

/-- `rewriteHtmlL` on `String`s. -/
def rewriteHtml (resolve : Str → Option Str) (pb : Str) (s : String) : String :=
  String.mk (rewriteHtmlL resolve pb s.data)

/-! ## Response assembly after the upstream fetch (lines 43–98) -/

/-- What the handler reads from the `fetch` response: status, the
`content-type` header (`none` when absent), the body as text (`.text()`), and
the body as raw bytes (`.arrayBuffer()`). -/
structure UpstreamResp where
  status : Nat
  contentType : Option String
  bodyText : String
  bodyBytes : List Nat
  deriving Repr, DecidableEq

/-- The handler's outgoing response: the HTML path (status, content-type
header, `Content-Security-Policy` header, rewritten body) or the pass-through
path (status, forwarded content-type, raw bytes). -/
inductive ProxyResp where
  | html (status : Nat) (contentType : String) (csp : String) (body : String)
  | raw (status : Nat) (contentType : Option String) (bytes : List Nat)
  deriving Repr, DecidableEq

/-- `contentType.includes('text/html')` on
`upstream.headers.get('content-type') || ''`. -/
def includesStr (s sub : String) : Bool :=
  hasSub sub.data s.data

/-- The content-type header set on the pass-through path:
`const ct = upstream.headers.get('content-type'); if (ct) res.setHeader('content-type', ct);`
— the header is forwarded only when present *and* truthy (non-empty), else no
content-type header is set (`none`). -/
def fwdContentType (ct : Option String) : Option String :=
  match ct with
  | some s => if jsTruthy s then some s else none
  | none => none

/-- The post-fetch half of the handler (lines 43–98): classify by
content-type, rewrite and relax headers on the HTML path, pass bytes through
otherwise (forwarding the content-type only under the `if (ct)` guard). -/
def handleUpstream (resolve : Str → Option Str) (pb : Str) (u : UpstreamResp) :
    ProxyResp :=
  if includesStr (u.contentType.getD "") "text/html" then
    .html 200 "text/html; charset=utf-8" "frame-ancestors *"
      (rewriteHtml resolve pb u.bodyText)
  else
    .raw u.status (fwdContentType u.contentType) u.bodyBytes

/-! ## Spec-side view of the validation pipeline as an ordered gate list

Each gate reports `some (status, message)` when it fires.  Gates that need the
parsed URL report nothing when an earlier gate already failed to produce one;
`firstHit` picks the earliest firing gate. -/

/-- Gate 1: presence of the target URL. -/
def gMissing (req : Req) : Option (Nat × String) :=
  if (targetUrlOf req).isNone then some (400, "Missing \"url\" query parameter")
  else none

/-- Gate 2: API-key check. -/
def gAuth (cfg : Config) (req : Req) : Option (Nat × String) :=
  if cfg.apiKey != "" && req.apiKeyHeader.getD "" != cfg.apiKey then
    some (401, "Unauthorized — invalid API key")
  else none

/-- Gate 3: URL parse. -/
def gParse (p : String → Option URLRec) (req : Req) : Option (Nat × String) :=
  match targetUrlOf req with
  | some turl => if (p turl).isNone then some (400, "Invalid URL") else none
  | none => none

/-- Gate 4: scheme check. -/
def gScheme (p : String → Option URLRec) (req : Req) : Option (Nat × String) :=
  match (targetUrlOf req).bind p with
  | some t =>
    if !(t.protocol == "http:" || t.protocol == "https:") then
      some (400, "Only http/https allowed")
    else none
  | none => none

/-- Gate 5: host screening (forbidden hosts, then private IP ranges). -/
def gHost (p : String → Option URLRec) (req : Req) : Option (Nat × String) :=
  match (targetUrlOf req).bind p with
  | some t =>
    if forbiddenHostRegexTest t.hostname || dotLocalTest t.hostname then
      some (403, "Forbidden host")
    else if dottedQuadRegexTest t.hostname && privateRangeHit t.hostname then
      some (403, "Forbidden IP range")
    else none
  | none => none

/-- Gate 6: allowlist check. -/
def gAllow (cfg : Config) (p : String → Option URLRec) (req : Req) :
    Option (Nat × String) :=
  match (targetUrlOf req).bind p with
  | some t =>
    if (allowlistOf cfg.allowlist).length > 0 &&
        !allowHit (allowlistOf cfg.allowlist) t.hostname then
      some (403, "Host not allowed by allowlist")
    else none
  | none => none

/-- The earliest firing gate of an ordered gate list. -/
def firstHit : List (Option (Nat × String)) → Option (Nat × String)
  | [] => none
  | some r :: _ => some r
  | none :: rest => firstHit rest

/-- The validation pipeline as the spec describes it: the ordered gate list is
consulted, the earliest firing gate alone determines the rejection, and when no
gate fires the parsed target proceeds to the fetch.  (The final fallback arm is
unreachable: when no gate fires, gates 1 and 3 guarantee a parsed target.) -/
def specFirstFailure (p : String → Option URLRec) (cfg : Config) (req : Req) :
    VResult :=
  match firstHit [gMissing req, gAuth cfg req, gParse p req, gScheme p req,
      gHost p req, gAllow cfg p req] with
  | some (s, m) => .reject s m
  | none =>
    match (targetUrlOf req).bind p with
    | some t => .proceed t
    | none => .reject 400 "Invalid URL"

/-- Does any position of the text start a match of the CSP `<meta …>` regex? -/
def hasCspTag : Str → Bool
  | [] => false
  | c :: cs => (cspMatchAt (c :: cs)).isSome || hasCspTag cs

/-- Modelled platform behaviour of WHATWG `new URL(s)` on the concrete URLs
used in the evaluations below: each parses with the evident protocol and
hostname. -/
def parseFixed : String → Option URLRec := fun s =>
  if s = "http://127.0.0.1/" then some ⟨"http:", "127.0.0.1"⟩
  else if s = "http://0.0.0.0/" then some ⟨"http:", "0.0.0.0"⟩
  else if s = "http://10.0.0.1/" then some ⟨"http:", "10.0.0.1"⟩
  else if s = "https://example.com/" then some ⟨"https:", "example.com"⟩
  else if s = "https://api.example.com/" then some ⟨"https:", "api.example.com"⟩
  else if s = "https://evil.com/" then some ⟨"https:", "evil.com"⟩
  else none

/-! ## Theorems for the claims -/

/-- C1.  The claim says hostnames `localhost`, `127.0.0.1`, `0.0.0.0`, `::1`
and `*.local` are all rejected with 403 `Forbidden host`.  The code catches
`localhost`, `::1` and `*.local`, but the doubled backslashes in the host
regex make the `127…` alternative match only `127` or `127\⟨c⟩` and the
`0\\.0\\.0\\.0` alternative unsatisfiable by any backslash-free hostname, so
requests for `http://127.0.0.1/` and `http://0.0.0.0/` pass validation and the
handler proceeds to fetch them. -/
theorem c1_loopback_hosts_not_screened :
    forbiddenHostRegexTest "localhost" = true ∧
    forbiddenHostRegexTest "::1" = true ∧
    dotLocalTest "foo.local" = true ∧
    forbiddenHostRegexTest "127.0.0.1" = false ∧
    dotLocalTest "127.0.0.1" = false ∧
    forbiddenHostRegexTest "0.0.0.0" = false ∧
    dotLocalTest "0.0.0.0" = false ∧
    validate parseFixed ⟨"", ""⟩ ⟨some "http://127.0.0.1/", none, none⟩ =
      .proceed ⟨"http:", "127.0.0.1"⟩ ∧
    validate parseFixed ⟨"", ""⟩ ⟨some "http://0.0.0.0/", none, none⟩ =
      .proceed ⟨"http:", "0.0.0.0"⟩ := by
  decide

/-- C2.  The claim says literal private-range IPv4 hosts (10/8, 172.16/12,
192.168/16) are rejected with 403 `Forbidden IP range`.  The guard regex
`/^\\d+\\.\\d+\\.\\d+\\.\\d+$/` requires literal backslashes and `d`
characters, so it matches no dotted-quad hostname; the octet test behind it
(which would catch these hosts, as shown) is dead code, and requests for such
hosts pass validation. -/
theorem c2_private_ip_range_not_screened :
    dottedQuadRegexTest "10.0.0.1" = false ∧
    privateRangeHit "10.0.0.1" = true ∧
    dottedQuadRegexTest "172.16.0.1" = false ∧
    privateRangeHit "172.16.0.1" = true ∧
    dottedQuadRegexTest "192.168.1.1" = false ∧
    privateRangeHit "192.168.1.1" = true ∧
    validate parseFixed ⟨"", ""⟩ ⟨some "http://10.0.0.1/", none, none⟩ =
      .proceed ⟨"http:", "10.0.0.1"⟩ := by
  decide

/-- C3.  The claim says `src`/`href`/`action` attribute values are rewritten
to `proxyBase?url=⟨encoded absolute URL⟩`.  In the regex literal
`/(src|href|action)=("|\')([^"\'>]+)\\2/ig` the trailing `\\2` matches a
literal `\2` character pair, not the opening quote, so no ordinary attribute
(`src="…"` or `href='…'`) ever matches and the spec's own two examples pass
through the whole rewrite unchanged, whatever the URL resolver and proxy base
are. -/
theorem c3_attr_rewrite_dead (resolve : Str → Option Str) (pb : Str) :
    rewriteHtml resolve pb "<img src=\"https://cdn.test/x.png\">" =
      "<img src=\"https://cdn.test/x.png\">" ∧
    rewriteHtml resolve pb "<a href=\"../other.html\">" =
      "<a href=\"../other.html\">" := ⟨rfl, rfl⟩

/-- C4.  The claim says `srcset` candidate URLs are rewritten with their
size/density descriptors preserved.  In `/srcset=("|\')([^"']+)\\1/ig` the
trailing `\\1` matches a literal `\1` pair, not the closing quote, so an
ordinary `srcset="…"` attribute never matches and the spec's example passes
through the whole rewrite unchanged. -/
theorem c4_srcset_rewrite_dead (resolve : Str → Option Str) (pb : Str) :
    rewriteHtml resolve pb "<img srcset=\"img1.png 1x, img2.png 2x\">" =
      "<img srcset=\"img1.png 1x, img2.png 2x\">" := rfl

/-- C6.  The validation stage equals the spec-side pipeline that consults the
gates (presence, API key, parse, scheme, host screening, allowlist) in order
and lets the earliest firing gate alone determine the rejection. -/
theorem c6_validate_first_failure (p : String → Option URLRec) (cfg : Config)
    (req : Req) : validate p cfg req = specFirstFailure p cfg req := by
  unfold validate specFirstFailure gMissing gAuth gParse gScheme gHost gAllow
  cases htu : targetUrlOf req with
  | none => simp [firstHit]
  | some turl =>
    cases hk : cfg.apiKey != "" && req.apiKeyHeader.getD "" != cfg.apiKey with
    | true => simp [firstHit, hk]
    | false =>
      cases hp : p turl with
      | none => simp [firstHit, hk, hp]
      | some t =>
        cases hs : t.protocol == "http:" || t.protocol == "https:" with
        | false => simp [firstHit, hk, hp, hs]
        | true =>
          cases hf : forbiddenHostRegexTest t.hostname || dotLocalTest t.hostname with
          | true => simp [firstHit, hk, hp, hs, hf]
          | false =>
            cases hd : dottedQuadRegexTest t.hostname && privateRangeHit t.hostname with
            | true => simp [firstHit, hk, hp, hs, hf, hd]
            | false =>
              cases ha : allowHit (allowlistOf cfg.allowlist) t.hostname with
              | true => simp [firstHit, hk, hp, hs, hf, hd, ha]
              | false =>
                by_cases hl : (allowlistOf cfg.allowlist).length > 0 <;>
                  simp [firstHit, hk, hp, hs, hf, hd, ha, hl]

/-- C7.  When the upstream content-type contains `text/html` the handler
responds 200 with content-type `text/html; charset=utf-8`, the header
`Content-Security-Policy: frame-ancestors *` and the rewritten body; otherwise
rewriting is bypassed and the upstream status and body bytes are forwarded
unchanged, with the content-type header forwarded under the `if (ct)` guard —
in particular any present, non-empty upstream content-type is forwarded as
is (a present-but-empty one is dropped, matching the code's truthiness
check). -/
theorem c7_content_type_dispatch (resolve : Str → Option Str) (pb : Str)
    (u : UpstreamResp) :
    (includesStr (u.contentType.getD "") "text/html" = true →
      handleUpstream resolve pb u =
        .html 200 "text/html; charset=utf-8" "frame-ancestors *"
          (rewriteHtml resolve pb u.bodyText)) ∧
    (includesStr (u.contentType.getD "") "text/html" = false →
      handleUpstream resolve pb u =
        .raw u.status (fwdContentType u.contentType) u.bodyBytes) ∧
    (∀ s, u.contentType = some s → jsTruthy s = true →
      fwdContentType u.contentType = some s) := by
  refine ⟨?_, ?_, ?_⟩
  · intro h
    simp [handleUpstream, h]
  · intro h
    simp [handleUpstream, h]
  · intro s hs ht
    simp [fwdContentType, hs, ht]

/-- Witness for C7: an HTML upstream (even with a 404 status) yields the
rewritten 200 response; a PNG upstream with status 203 is passed through
byte-for-byte with its content-type forwarded; and an upstream with a
present-but-empty content-type is passed through with no content-type header
at all. -/
theorem c7_content_type_dispatch_witness :
    handleUpstream (fun _ => none) [] ⟨404, some "text/html", "<p>hi</p>", [0]⟩ =
      .html 200 "text/html; charset=utf-8" "frame-ancestors *"
        (rewriteHtml (fun _ => none) [] "<p>hi</p>") ∧
    handleUpstream (fun _ => none) [] ⟨203, some "image/png", "", [137, 80]⟩ =
      .raw 203 (some "image/png") [137, 80] ∧
    handleUpstream (fun _ => none) [] ⟨200, some "", "x", [7]⟩ =
      .raw 200 none [7] ∧
    fwdContentType (some "image/png") = some "image/png" :=
  ⟨(c7_content_type_dispatch (fun _ => none) []
      ⟨404, some "text/html", "<p>hi</p>", [0]⟩).1 (by decide),
   (c7_content_type_dispatch (fun _ => none) []
      ⟨203, some "image/png", "", [137, 80]⟩).2.1 (by decide),
   (c7_content_type_dispatch (fun _ => none) []
      ⟨200, some "", "x", [7]⟩).2.1 (by decide),
   (c7_content_type_dispatch (fun _ => none) []
      ⟨203, some "image/png", "", [137, 80]⟩).2.2 "image/png" rfl (by decide)⟩

/-- C5.  When a request reaches the allowlist gate (all earlier gates pass),
an empty configured allowlist enforces nothing, and a non-empty one lets the
request proceed exactly when the hostname equals an entry or is a dot-suffix
subdomain of one, rejecting it with 403 `Host not allowed by allowlist`
otherwise. -/
theorem c5_allowlist_gate (p : String → Option URLRec) (cfg : Config)
    (req : Req) (u : String) (t : URLRec)
    (h1 : targetUrlOf req = some u)
    (h2 : (cfg.apiKey != "" && req.apiKeyHeader.getD "" != cfg.apiKey) = false)
    (h3 : p u = some t)
    (h4 : (t.protocol == "http:" || t.protocol == "https:") = true)
    (h5 : (forbiddenHostRegexTest t.hostname || dotLocalTest t.hostname) = false)
    (h6 : (dottedQuadRegexTest t.hostname && privateRangeHit t.hostname) = false) :
    (allowlistOf cfg.allowlist = [] → validate p cfg req = .proceed t) ∧
    (allowlistOf cfg.allowlist ≠ [] →
      ((∃ a ∈ allowlistOf cfg.allowlist,
          a = t.hostname ∨ hasSuf ('.' :: a.data) t.hostname.data = true) ↔
        validate p cfg req = .proceed t) ∧
      (¬(∃ a ∈ allowlistOf cfg.allowlist,
          a = t.hostname ∨ hasSuf ('.' :: a.data) t.hostname.data = true) ↔
        validate p cfg req = .reject 403 "Host not allowed by allowlist")) := by
  have key : allowHit (allowlistOf cfg.allowlist) t.hostname = true ↔
      (∃ a ∈ allowlistOf cfg.allowlist,
        a = t.hostname ∨ hasSuf ('.' :: a.data) t.hostname.data = true) := by
    simp [allowHit, List.any_eq_true]
  constructor
  · intro hnil
    simp [validate, h1, h2, h3, h4, h5, h6, hnil]
  · intro hne
    have hl : (allowlistOf cfg.allowlist).length > 0 := List.length_pos.mpr hne
    cases hA : allowHit (allowlistOf cfg.allowlist) t.hostname with
    | true =>
      have hv : validate p cfg req = .proceed t := by
        simp [validate, h1, h2, h3, h4, h5, h6, hA]
      refine ⟨iff_of_true (key.mp hA) hv, iff_of_false (by simp [key.mp hA]) ?_⟩
      rw [hv]; simp
    | false =>
      have hv : validate p cfg req = .reject 403 "Host not allowed by allowlist" := by
        simp [validate, h1, h2, h3, h4, h5, h6, hA, hl]
      have hnex : ¬(∃ a ∈ allowlistOf cfg.allowlist,
          a = t.hostname ∨ hasSuf ('.' :: a.data) t.hostname.data = true) := by
        intro hx
        rw [key.mpr hx] at hA
        cases hA
      refine ⟨iff_of_false hnex ?_, iff_of_true hnex hv⟩
      rw [hv]; simp

/-- Witness for C5: with allowlist `example.com`, hosts `example.com` and
`api.example.com` proceed while `evil.com` is rejected. -/
theorem c5_allowlist_gate_witness :
    validate parseFixed ⟨"", "example.com"⟩
      ⟨some "https://example.com/", none, none⟩ =
      .proceed ⟨"https:", "example.com"⟩ ∧
    validate parseFixed ⟨"", "example.com"⟩
      ⟨some "https://api.example.com/", none, none⟩ =
      .proceed ⟨"https:", "api.example.com"⟩ ∧
    validate parseFixed ⟨"", "example.com"⟩
      ⟨some "https://evil.com/", none, none⟩ =
      .reject 403 "Host not allowed by allowlist" :=
  ⟨(((c5_allowlist_gate parseFixed ⟨"", "example.com"⟩
        ⟨some "https://example.com/", none, none⟩ "https://example.com/"
        ⟨"https:", "example.com"⟩ (by decide) (by decide) (by decide) (by decide)
        (by decide) (by decide)).2 (by decide)).1).mp
      ⟨"example.com", by decide, Or.inl rfl⟩,
   (((c5_allowlist_gate parseFixed ⟨"", "example.com"⟩
        ⟨some "https://api.example.com/", none, none⟩ "https://api.example.com/"
        ⟨"https:", "api.example.com"⟩ (by decide) (by decide) (by decide)
        (by decide) (by decide) (by decide)).2 (by decide)).1).mp
      ⟨"example.com", by decide, Or.inr (by decide)⟩,
   (((c5_allowlist_gate parseFixed ⟨"", "example.com"⟩
        ⟨some "https://evil.com/", none, none⟩ "https://evil.com/"
        ⟨"https:", "evil.com"⟩ (by decide) (by decide) (by decide) (by decide)
        (by decide) (by decide)).2 (by decide)).2).mp (by decide)⟩

/-- C10.  If a non-empty API key is configured, a request without the
`x-api-key` header is rejected 401 exactly as one with a wrong key (the absent
header reads as the empty string, which never equals a non-empty secret); if
no key is configured, the header is ignored entirely. -/
theorem c10_api_key_gate (p : String → Option URLRec) (cfg : Config)
    (req : Req) (u : String) (h1 : targetUrlOf req = some u) :
    (cfg.apiKey ≠ "" → req.apiKeyHeader = none →
      validate p cfg req = .reject 401 "Unauthorized — invalid API key") ∧
    (∀ w, cfg.apiKey ≠ "" → req.apiKeyHeader = some w → w ≠ cfg.apiKey →
      validate p cfg req = .reject 401 "Unauthorized — invalid API key") ∧
    (cfg.apiKey = "" → ∀ h2,
      validate p cfg req = validate p cfg { req with apiKeyHeader := h2 }) := by
  refine ⟨?_, ?_, ?_⟩
  · intro hk hh
    simp [validate, h1, hh, hk, Ne.symm hk]
  · intro w hk hh hw
    simp [validate, h1, hh, hk, hw]
  · intro hk h2
    simp [validate, targetUrlOf, hk]

/-- Witness for C10: with secret `sekret`, a request with no `x-api-key`
header and one with a wrong key are both rejected 401; with no secret
configured, the header's presence does not change the outcome. -/
theorem c10_api_key_gate_witness :
    validate parseFixed ⟨"sekret", ""⟩
      ⟨some "https://example.com/", none, none⟩ =
      .reject 401 "Unauthorized — invalid API key" ∧
    validate parseFixed ⟨"sekret", ""⟩
      ⟨some "https://example.com/", none, some "wrong"⟩ =
      .reject 401 "Unauthorized — invalid API key" ∧
    validate parseFixed ⟨"", ""⟩ ⟨some "https://example.com/", none, none⟩ =
      validate parseFixed ⟨"", ""⟩
        ⟨some "https://example.com/", none, some "whatever"⟩ :=
  ⟨(c10_api_key_gate parseFixed ⟨"sekret", ""⟩
      ⟨some "https://example.com/", none, none⟩ "https://example.com/"
      (by decide)).1 (by decide) rfl,
   (c10_api_key_gate parseFixed ⟨"sekret", ""⟩
      ⟨some "https://example.com/", none, some "wrong"⟩ "https://example.com/"
      (by decide)).2.1 "wrong" (by decide) rfl (by decide),
   (c10_api_key_gate parseFixed ⟨"", ""⟩
      ⟨some "https://example.com/", none, none⟩ "https://example.com/"
      (by decide)).2.2 rfl (some "whatever")⟩

/-- Helper: mapping in the `Option` monad returns `none` as soon as any list
element maps to `none` (the embedding of a thrown exception aborting the whole
`parts.map`). -/
theorem mapM_none_of_mem {α β : Type} (f : α → Option β) :
    ∀ l : List α, (∃ x ∈ l, f x = none) → l.mapM f = none := by
  intro l
  induction l with
  | nil => intro h; simp at h
  | cons a l ih =>
    intro h
    obtain ⟨x, hx, hfx⟩ := h
    rw [List.mapM_cons]
    rcases List.mem_cons.mp hx with rfl | hx'
    · simp [hfx]
    · cases hfa : f a with
      | none => simp [hfa]
      | some b =>
        simp only [hfa, Option.bind_eq_bind, Option.some_bind, ih ⟨x, hx', hfx⟩]
        rfl

/-- Helper: a global replacement whose callback returns every matched text
unchanged is the identity, for any fuel. -/
theorem scanReplace_cb_id {α : Type} (matcher : Str → Option (α × Nat))
    (cb : α → Str → Str) (hcb : ∀ g t, cb g t = t) :
    ∀ fuel cs, scanReplace matcher cb fuel cs = cs := by
  intro fuel
  induction fuel with
  | zero => intro cs; rfl
  | succ n ih =>
    intro cs
    cases hm : matcher cs with
    | some gn =>
      obtain ⟨g, k⟩ := gn
      simp [scanReplace, hm, hcb, ih, List.take_append_drop]
    | none =>
      cases cs with
      | nil => simp [scanReplace, hm]
      | cons c cs' => simp [scanReplace, hm, ih]

/-- Helper: `split` always yields at least one piece. -/
theorem splitOnChar_ne_nil (sep : Char) (l : Str) : splitOnChar sep l ≠ [] := by
  cases l with
  | nil => simp [splitOnChar]
  | cons c rest =>
    by_cases hc : c = sep
    · simp [splitOnChar, hc]
    · cases h : splitOnChar sep rest with
      | nil => simp [splitOnChar, hc, h]
      | cons x xs => simp [splitOnChar, hc, h]

/-- C8.  Resolution failures are swallowed: a `src`/`href`/`action` match
whose value fails to resolve is replaced by its own matched text; a `srcset`
match any of whose candidate URLs fails to resolve is replaced by its own
matched text (all-or-nothing per attribute); and when resolution fails
everywhere, each whole rewrite pass is the identity on the document — the
engine is total and never aborts. -/
theorem c8_resolution_failure_preserved :
    (∀ (resolve : Str → Option Str) (pb nm : Str) (q : Char) (val m : Str),
      resolve val = none → attrCb resolve pb (nm, q, val) m = m) ∧
    (∀ (resolve : Str → Option Str) (pb : Str) (q : Char) (val m : Str),
      (∃ part ∈ (splitOnChar ',' val).map jsTrim, resolve (jsUrlTok part) = none) →
      srcsetCb resolve pb (q, val) m = m) ∧
    (∀ (resolve : Str → Option Str) (pb html : Str), (∀ v, resolve v = none) →
      attrPassL resolve pb html = html ∧ srcsetPassL resolve pb html = html) := by
  refine ⟨?_, ?_, ?_⟩
  · intro resolve pb nm q val m h
    simp [attrCb, h]
  · intro resolve pb q val m hex
    obtain ⟨part, hmem, hnone⟩ := hex
    have hm : ((splitOnChar ',' val).map jsTrim).mapM
        (fun part => (resolve (jsUrlTok part)).map (fun abs =>
          pb ++ "?url=".data ++ encodeURIComponent abs ++
            part.drop (jsUrlTok part).length)) = none :=
      mapM_none_of_mem _ _ ⟨part, hmem, by simp [hnone]⟩
    simp only [srcsetCb]
    rw [hm]
  · intro resolve pb html hres
    constructor
    · exact scanReplace_cb_id _ _
        (fun g t => by obtain ⟨nm, q, val⟩ := g; simp [attrCb, hres]) _ _
    · refine scanReplace_cb_id _ _ (fun g t => ?_) _ _
      obtain ⟨q, val⟩ := g
      cases hsp : splitOnChar ',' val with
      | nil => exact absurd hsp (splitOnChar_ne_nil ',' val)
      | cons p r =>
        have hm : ((splitOnChar ',' val).map jsTrim).mapM
            (fun part => (resolve (jsUrlTok part)).map (fun abs =>
              pb ++ "?url=".data ++ encodeURIComponent abs ++
                part.drop (jsUrlTok part).length)) = none := by
          refine mapM_none_of_mem _ _ ⟨jsTrim p, ?_, by simp [hres]⟩
          rw [hsp]
          simp
        simp only [srcsetCb]
        rw [hm]

/-- Witness for C8: with a resolver that always fails, an attribute callback,
a srcset callback and both whole passes each leave their input unchanged. -/
theorem c8_resolution_failure_preserved_witness :
    attrCb (fun _ => none) [] ("src".data, '"', "x".data) "m".data = "m".data ∧
    srcsetCb (fun _ => none) [] ('"', "a 1x, b 2x".data) "m".data = "m".data ∧
    (attrPassL (fun _ => none) [] "<p>hi</p>".data = "<p>hi</p>".data ∧
      srcsetPassL (fun _ => none) [] "<p>hi</p>".data = "<p>hi</p>".data) :=
  ⟨c8_resolution_failure_preserved.1 (fun _ => none) [] "src".data '"'
      "x".data "m".data rfl,
   c8_resolution_failure_preserved.2.1 (fun _ => none) [] '"'
      "a 1x, b 2x".data "m".data (by decide),
   c8_resolution_failure_preserved.2.2 (fun _ => none) [] "<p>hi</p>".data
      (fun _ => rfl)⟩

/-- Helper: a match of the CSP meta regex must start with `<`. -/
theorem cspMatchAt_none_head (c : Char) (cs : Str) (hc : c ≠ '<') :
    cspMatchAt (c :: cs) = none := by
  simp [cspMatchAt, hc]

/-- Helper: no CSP meta match starts inside text containing no `<`. -/
theorem cspMatchAt_none_of_no_lt (cs : Str) (h : ∀ c ∈ cs, c ≠ '<') :
    cspMatchAt cs = none := by
  cases cs with
  | nil => rfl
  | cons c r => exact cspMatchAt_none_head c r (h c (List.mem_cons_self c r))

/-- Helper: text containing no `<` contains no CSP meta tag. -/
theorem hasCspTag_false : ∀ cs : Str, (∀ c ∈ cs, c ≠ '<') → hasCspTag cs = false := by
  intro cs
  induction cs with
  | nil => intro _; rfl
  | cons c r ih =>
    intro h
    simp [hasCspTag, cspMatchAt_none_head c r (h c (List.mem_cons_self c r)),
      ih (fun x hx => h x (List.mem_cons_of_mem c hx))]

/-- Helper: a global replacement is the identity on text where the matcher can
never fire (stated via a character predicate that rules matches out). -/
theorem scanRep_noMatch {α : Type} (matcher : Str → Option (α × Nat))
    (cb : α → Str → Str) (P : Char → Prop)
    (hmat : ∀ cs, (∀ c ∈ cs, P c) → matcher cs = none) :
    ∀ fuel cs, (∀ c ∈ cs, P c) → scanReplace matcher cb fuel cs = cs := by
  intro fuel
  induction fuel with
  | zero => intro cs _; rfl
  | succ n ih =>
    intro cs h
    cases cs with
    | nil => simp [scanReplace, hmat [] (by simp)]
    | cons c cs' =>
      simp [scanReplace, hmat _ h,
        ih cs' (fun x hx => h x (List.mem_cons_of_mem c hx))]

/-- Helper: the CSP-removal scan copies a `<`-free leading segment verbatim
and continues on the remainder with correspondingly reduced fuel. -/
theorem scanRep_skip_csp : ∀ (a rest : Str) (fuel : Nat), (∀ c ∈ a, c ≠ '<') →
    scanReplace cspMatchAt cspCb (a.length + fuel) (a ++ rest) =
      a ++ scanReplace cspMatchAt cspCb fuel rest := by
  intro a
  induction a with
  | nil => intro rest fuel _; simp
  | cons c a' ih =>
    intro rest fuel h
    have hm : cspMatchAt (c :: (a' ++ rest)) = none :=
      cspMatchAt_none_head c _ (h c (List.mem_cons_self c a'))
    rw [show (c :: a').length + fuel = (a'.length + fuel) + 1 by simp; omega]
    simp only [scanReplace, hm, List.cons_append]
    rw [ih rest fuel (fun x hx => h x (List.mem_cons_of_mem c hx))]

/-- Helper: membership in a `takeWhile` implies membership in the list. -/
theorem mem_of_takeWhile (p : Char → Bool) :
    ∀ (l : Str) (x : Char), x ∈ l.takeWhile p → x ∈ l := by
  intro l
  induction l with
  | nil => intro x hx; simp [List.takeWhile] at hx
  | cons c r ih =>
    intro x hx
    by_cases hp : p c = true
    · rw [List.takeWhile_cons_of_pos hp] at hx
      rcases List.mem_cons.mp hx with rfl | hx'
      · exact List.mem_cons_self _ _
      · exact List.mem_cons_of_mem _ (ih x hx')
    · rw [List.takeWhile_cons_of_neg (by simpa using hp)] at hx
      simp at hx

/-- Helper: a found `x, y` pair index means `x` occurs in the list. -/
theorem lastPairIdx_mem (x y : Char) :
    ∀ (l : Str) (i : Nat), lastPairIdx x y l = some i → x ∈ l := by
  intro l
  induction l with
  | nil => intro i h; simp [lastPairIdx] at h
  | cons a r ih =>
    cases r with
    | nil => intro i h; simp [lastPairIdx] at h
    | cons b rest =>
      intro i h
      cases hj : lastPairIdx x y (b :: rest) with
      | some j => exact List.mem_cons_of_mem a (ih j hj)
      | none =>
        simp only [lastPairIdx, hj] at h
        by_cases hxy : (a == x && b == y) = true
        · have hax : a = x := by
            have := (Bool.and_eq_true _ _).mp hxy
            exact beq_iff_eq.mp this.1
          rw [hax]
          exact List.mem_cons_self x (b :: rest)
        · rw [if_neg hxy] at h
          cases h

/-- Helper: no `x, y` pair is found when `x` does not occur at all. -/
theorem lastPairIdx_none (x y : Char) (l : Str) (h : x ∉ l) :
    lastPairIdx x y l = none := by
  cases hl : lastPairIdx x y l with
  | none => rfl
  | some i => exact absurd (lastPairIdx_mem x y l i hl) h

/-- Helper: the (mis-escaped) attribute regex needs a literal backslash, so it
never matches backslash-free text. -/
theorem attrMatchAt_none_of_no_bs (cs : Str) (h : ∀ c ∈ cs, c ≠ '\\') :
    attrMatchAt cs = none := by
  cases han : attrNameAt cs with
  | none => simp [attrMatchAt, han]
  | some nk =>
    obtain ⟨nm, k⟩ := nk
    cases hdk : cs.drop k with
    | nil => simp [attrMatchAt, han, hdk]
    | cons c1 r1 =>
      cases r1 with
      | nil => simp [attrMatchAt, han, hdk]
      | cons q rest =>
        have hbs : '\\' ∉ rest.takeWhile attrValChar := by
          intro hx
          have h1 : '\\' ∈ rest := mem_of_takeWhile _ rest _ hx
          have h2 : '\\' ∈ cs.drop k := by
            rw [hdk]
            exact List.mem_cons_of_mem _ (List.mem_cons_of_mem _ h1)
          exact h '\\' (List.drop_subset k cs h2) rfl
        simp [attrMatchAt, han, hdk, lastPairIdx_none _ _ _ hbs]

/-- Helper: the (mis-escaped) srcset regex needs a literal backslash, so it
never matches backslash-free text. -/
theorem srcsetMatchAt_none_of_no_bs (cs : Str) (h : ∀ c ∈ cs, c ≠ '\\') :
    srcsetMatchAt cs = none := by
  cases hd7 : cs.drop 7 with
  | nil => simp [srcsetMatchAt, hd7]
  | cons q rest =>
    have hbs : '\\' ∉ rest.takeWhile srcsetValChar := by
      intro hx
      have h1 : '\\' ∈ rest := mem_of_takeWhile _ rest _ hx
      have h2 : '\\' ∈ cs.drop 7 := by
        rw [hd7]
        exact List.mem_cons_of_mem _ h1
      exact h '\\' (List.drop_subset 7 cs h2) rfl
    simp [srcsetMatchAt, hd7, lastPairIdx_none _ _ _ hbs]

/-- Counterexample to C9 as stated.  The single left-to-right pass of the
replacement can splice the text surrounding a removed tag into a new CSP meta
tag: the input below contains `<meta http-equiv="Content-Security-Policy">`
(from position 4 on), that occurrence is matched and deleted, and the
remaining `<met` and `a http-equiv="Content-Security-Policy">` join into
exactly the same tag — so the rewritten output still contains it. -/
theorem c9_csp_removal_splice_cex :
    hasSub "<meta http-equiv=\"Content-Security-Policy\">".data
      "<met<meta http-equiv=\"Content-Security-Policy\">a http-equiv=\"Content-Security-Policy\">".data = true ∧
    rewriteHtml (fun _ => none) []
      "<met<meta http-equiv=\"Content-Security-Policy\">a http-equiv=\"Content-Security-Policy\">" =
      "<meta http-equiv=\"Content-Security-Policy\">" ∧
    hasSub "<meta http-equiv=\"Content-Security-Policy\">".data
      (rewriteHtml (fun _ => none) []
        "<met<meta http-equiv=\"Content-Security-Policy\">a http-equiv=\"Content-Security-Policy\">").data = true := by
  exact ⟨by decide, by decide, by decide⟩

/-- C9 (amended).  Matched CSP meta tags are deleted by the single
left-to-right pass, but a deletion may splice the adjacent text into a new tag
that survives in the output; when the surrounding text cannot splice (here: it
contains no `<`, and no backslash so the later passes leave it alone), the
output is exactly the surroundings with the tag gone and contains no CSP meta
tag. -/
theorem c9_csp_removal_amended (a t b : Str) (resolve : Str → Option Str)
    (pb : Str)
    (ha : ∀ c ∈ a, c ≠ '<' ∧ c ≠ '\\')
    (hb : ∀ c ∈ b, c ≠ '<' ∧ c ≠ '\\')
    (ht : cspMatchAt (t ++ b) = some ((), t.length)) :
    rewriteHtmlL resolve pb (a ++ t ++ b) = a ++ b ∧
    hasCspTag (a ++ b) = false := by
  have hab : ∀ c ∈ a ++ b, c ≠ '<' ∧ c ≠ '\\' := by
    intro c hc
    rcases List.mem_append.mp hc with h | h
    · exact ha c h
    · exact hb c h
  have hcsp : removeCspL (a ++ t ++ b) = a ++ b := by
    unfold removeCspL
    rw [List.append_assoc]
    rw [show (a ++ (t ++ b)).length = a.length + (t ++ b).length from by simp]
    rw [scanRep_skip_csp a (t ++ b) (t ++ b).length (fun c hc => (ha c hc).1)]
    congr 1
    cases t with
    | nil =>
      rw [List.nil_append] at ht
      rw [cspMatchAt_none_of_no_lt b (fun c hc => (hb c hc).1)] at ht
      cases ht
    | cons tc t' =>
      rw [show ((tc :: t') ++ b).length = (t'.length + b.length) + 1 from by
        simp [List.length_append]]
      simp only [scanReplace]
      rw [ht]
      dsimp only
      simp only [cspCb, List.take_left, List.drop_left, List.nil_append]
      exact scanRep_noMatch cspMatchAt cspCb (fun c => c ≠ '<')
        cspMatchAt_none_of_no_lt _ b (fun c hc => (hb c hc).1)
  have hattr : attrPassL resolve pb (a ++ b) = a ++ b := by
    unfold attrPassL
    exact scanRep_noMatch attrMatchAt _ (fun c => c ≠ '\\')
      attrMatchAt_none_of_no_bs _ _ (fun c hc => (hab c hc).2)
  have hsrc : srcsetPassL resolve pb (a ++ b) = a ++ b := by
    unfold srcsetPassL
    exact scanRep_noMatch srcsetMatchAt _ (fun c => c ≠ '\\')
      srcsetMatchAt_none_of_no_bs _ _ (fun c hc => (hab c hc).2)
  refine ⟨?_, hasCspTag_false _ (fun c hc => (hab c hc).1)⟩
  unfold rewriteHtmlL
  rw [hcsp, hattr, hsrc]

/-- Witness for the amended C9: a standard CSP meta tag between plain `x` and
`y` is removed and the output has no CSP meta tag. -/
theorem c9_csp_removal_amended_witness :
    rewriteHtmlL (fun _ => none) []
      ("x".data ++ "<meta http-equiv=\"Content-Security-Policy\">".data ++ "y".data) =
      "x".data ++ "y".data ∧
    hasCspTag ("x".data ++ "y".data) = false :=
  c9_csp_removal_amended "x".data
    "<meta http-equiv=\"Content-Security-Policy\">".data "y".data
    (fun _ => none) [] (by decide) (by decide) (by decide)

end Zyron
